import Mathlib

/-!
Verification of the Gemini Lens photo-editor state model.

Shallow embedding of the TypeScript sources:
* `types.ts` — enums and record types (`EditMode`, `FilterType`, `Adjustments`,
  `ProcessingState`, `ImageState`).
* `services/geminiService.ts` (src/unnamed/part_000, first document) —
  `performImageEdit`: prompt/model selection per mode, request assembly,
  response extraction, error wrapping.
* `App.tsx` (src/unnamed/part_000, second document) — session/history store
  (`pushHistory`, `undo`, `redo`, `updateAdjustment`, `setFilter`),
  `handleAIEdit`, the crop and filter-chain computation of
  `generateFinalImage`, and `getCssFilterString`.

JavaScript numbers appearing in slider state are embedded as `Int`
(all slider values are integers); the crop geometry, where exact division
matters, is embedded over `ℚ`.  JS truthiness on strings (`if (s)`) is
embedded as `s ≠ ""` on present optional strings.
-/

namespace GeminiLens

/-- `EditMode` from types.ts. -/
inductive EditMode where
  | PIXEL_ART
  | ANIME
  | REMOVE_BG
  | REPLACE_BG
  | ENHANCE
  | NONE
deriving DecidableEq

/-- `FilterType` from types.ts. -/
inductive FilterType where
  | NONE
  | GRAYSCALE
  | SEPIA
  | VINTAGE
  | BLUR
deriving DecidableEq

/-- `Adjustments` from types.ts: four numeric sliders. -/
structure Adjustments where
  brightness : Int
  contrast : Int
  saturation : Int
  blur : Int
deriving DecidableEq

/-- `DEFAULT_ADJUSTMENTS` from App.tsx. -/
def DEFAULT_ADJUSTMENTS : Adjustments :=
  { brightness := 100, contrast := 100, saturation := 100, blur := 0 }

/-- `ProcessingState` from types.ts. -/
structure ProcessingState where
  isProcessing : Bool
  error : Option String
  mode : Option EditMode
deriving DecidableEq

/-- One entry of `ImageState.history` from types.ts: a full snapshot of
(current, adjustments, filter). -/
structure HistoryEntry where
  current : Option String
  adjustments : Adjustments
  filter : FilterType
deriving DecidableEq

/-- `ImageState` from types.ts. -/
structure ImageState where
  id : String
  original : Option String
  current : Option String
  thumbnail : Option String
  mimeType : String
  name : String
  adjustments : Adjustments
  filter : FilterType
  history : List HistoryEntry
  historyIndex : Nat
deriving DecidableEq

/-- The currently visible (current, adjustments, filter) triple of a session. -/
def visTriple (img : ImageState) : HistoryEntry :=
  { current := img.current, adjustments := img.adjustments, filter := img.filter }

/-- The fresh `ImageState` built in `handleFileUpload` (App.tsx): seeded with
one history entry equal to the loaded image with default adjustments. -/
def mkSession (base64 name mimeType id : String) : ImageState :=
  { id := id
    name := name
    original := some base64
    current := some base64
    thumbnail := some base64
    mimeType := mimeType
    adjustments := DEFAULT_ADJUSTMENTS
    filter := FilterType.NONE
    history := [{ current := some base64, adjustments := DEFAULT_ADJUSTMENTS,
                  filter := FilterType.NONE }]
    historyIndex := 0 }

/-- The `Partial<ImageState>` argument of `pushHistory` (App.tsx): only the
keys `current`, `adjustments`, `filter` are ever passed by its callers, and
only those participate in the merged snapshot.  An absent key (`none`) falls
back to the session's current value, mirroring `??` and object spread. -/
structure PartialImage where
  current : Option (Option String) := none
  adjustments : Option Adjustments := none
  filter : Option FilterType := none
deriving DecidableEq

/-- The per-session body of `pushHistory` (App.tsx lines 278-297): build the
merged snapshot with `??` fallbacks, truncate history with
`slice(0, historyIndex + 1)`, push the snapshot, and point `historyIndex`
at the new last element.  The surrounding `map` over the image list is
modelled at the application level below. -/
def pushHistoryImg (p : PartialImage) (img : ImageState) : ImageState :=
  let newHistoryItem : HistoryEntry :=
    { current := p.current.getD img.current
      adjustments := p.adjustments.getD img.adjustments
      filter := p.filter.getD img.filter }
  let newHistory := img.history.take (img.historyIndex + 1) ++ [newHistoryItem]
  { img with
      current := newHistoryItem.current
      adjustments := newHistoryItem.adjustments
      filter := newHistoryItem.filter
      history := newHistory
      historyIndex := newHistory.length - 1 }

/-- The per-session effect of `undo` (App.tsx lines 299-310): no-op when the
cursor is at 0, otherwise make `history[historyIndex - 1]` visible.  The JS
code indexes the array directly; under the reachability invariant proved
below the index is always in bounds, so the out-of-range branch (returning
the session unchanged) is never taken. -/
def undoImg (img : ImageState) : ImageState :=
  if img.historyIndex ≤ 0 then img
  else
    let prevIndex := img.historyIndex - 1
    match img.history[prevIndex]? with
    | none => img
    | some historicalState =>
      { img with
          current := historicalState.current
          adjustments := historicalState.adjustments
          filter := historicalState.filter
          historyIndex := prevIndex }

/-- The per-session effect of `redo` (App.tsx lines 312-323): no-op when the
cursor is at the last index, otherwise make `history[historyIndex + 1]`
visible. -/
def redoImg (img : ImageState) : ImageState :=
  if img.historyIndex ≥ img.history.length - 1 then img
  else
    let nextIndex := img.historyIndex + 1
    match img.history[nextIndex]? with
    | none => img
    | some historicalState =>
      { img with
          current := historicalState.current
          adjustments := historicalState.adjustments
          filter := historicalState.filter
          historyIndex := nextIndex }

/-- The key argument of `updateAdjustment` (App.tsx): `keyof Adjustments`. -/
inductive AdjKey where
  | brightness
  | contrast
  | saturation
  | blur
deriving DecidableEq

/-- The computed-key record update `{ ...img.adjustments, [key]: value }`. -/
def setAdj (a : Adjustments) : AdjKey → Int → Adjustments
  | AdjKey.brightness, v => { a with brightness := v }
  | AdjKey.contrast, v => { a with contrast := v }
  | AdjKey.saturation, v => { a with saturation := v }
  | AdjKey.blur, v => { a with blur := v }

/-- The per-session effect of `updateAdjustment` (App.tsx lines 328-337):
replace one slider value in the live `adjustments`, touching nothing else. -/
def updateAdjImg (k : AdjKey) (v : Int) (img : ImageState) : ImageState :=
  { img with adjustments := setAdj img.adjustments k v }

/-! ### Model invocation adapter (`performImageEdit`, geminiService.ts) -/

/-- An inline-data blob `{ mimeType, data }` as used in request and response
parts. -/
structure InlineData where
  mimeType : String
  data : String
deriving DecidableEq

/-- One element of the request `contents.parts` array. -/
inductive ReqPart where
  | inlineData (d : InlineData)
  | text (t : String)
deriving DecidableEq

/-- The `imageConfig` used for the ENHANCE mode. -/
structure ImageGenConfig where
  imageSize : String
  aspectRatio : String
deriving DecidableEq

/-- The single outbound `generateContent` request assembled by
`performImageEdit`. -/
structure GenRequest where
  model : String
  parts : List ReqPart
  imageConfig : Option ImageGenConfig
deriving DecidableEq

/-- Options record `EditOptions` of `performImageEdit`: both fields optional
(`backgroundColor?: string`, `backgroundImage?: string | null`). -/
structure EditOptions where
  backgroundColor : Option String := none
  backgroundImage : Option String := none
deriving DecidableEq

/-- JS truthiness of an optional string: present and nonempty. -/
def jsTruthy : Option String → Bool
  | none => false
  | some s => s != ""

/-- Models `s.split(c)` for a single-character separator, splitting the
character sequence on every occurrence of the separator. -/
def splitChar (c : Char) (s : String) : List String :=
  (s.data.splitOn c).map (fun l => String.mk l)

/-- Models `s.startsWith(pre)`: prefix test on the character sequence. -/
def strStartsWith (s pre : String) : Bool :=
  pre.data.isPrefixOf s.data

/-- Models `stripBase64Prefix` (geminiService.ts): `dataUrl.split(',')[1]`.
An absent second chunk is embedded as the empty string. -/
def base64Body (dataUrl : String) : String :=
  (splitChar ',' dataUrl).getD 1 ""

/-- The MIME-type extraction for the secondary background image:
`dataUrl.split(';')[0].split(':')[1]`. -/
def dataUrlMime (dataUrl : String) : String :=
  (splitChar ':' ((splitChar ';' dataUrl).getD 0 "")).getD 1 ""

/-- Prompt for `EditMode.PIXEL_ART`. -/
def pixelArtPrompt : String :=
  "Convert this image into a pixel art style. Maintain the original subject and composition but render it with clear pixelation and vibrant colors appropriate for pixel art video games."

/-- Prompt for `EditMode.ANIME`. -/
def animePrompt : String :=
  "Transform this image into a high-quality anime style illustration. Use distinct line work, shading, and anime aesthetic while keeping the subject recognizable."

/-- Prompt for `EditMode.REMOVE_BG`. -/
def removeBgPrompt : String :=
  "Isolate the main subject of this image and place it on a pure solid white background. Ensure the edges are clean and precise."

/-- Prompt for `EditMode.REPLACE_BG` with a custom background image. -/
def compositeBgPrompt : String :=
  "Composite the subject from the first image onto the background provided in the second image. Adjust lighting and shadows of the subject to match the new environment realistically."

/-- Prompt for `EditMode.REPLACE_BG` with a background color/style string. -/
def coloredBgPrompt (c : String) : String :=
  "Isolate the main subject of this image and place it on a background with the color/style: " ++ c ++ ". Ensure realistic integration."

/-- Prompt for `EditMode.REPLACE_BG` with neither optional input. -/
def scenicBgPrompt : String :=
  "Place the subject of this image into a scenic outdoor environment."

/-- Prompt for `EditMode.ENHANCE`. -/
def enhancePrompt : String :=
  "Recreate this image in ultra-high resolution (4K). Enhance fine details, textures, and lighting clarity significantly. Fix any blurriness or noise. Make it look like a professional photograph."

/-- The per-mode selection made by the `switch (mode)` of `performImageEdit`
(geminiService.ts lines 51-92): model identifier, instruction string, extra
request parts (the secondary background image, pushed before the prompt),
and the optional image generation config. -/
structure ModeSel where
  model : String
  prompt : String
  extraParts : List ReqPart
  imageConfig : Option ImageGenConfig
deriving DecidableEq

/-- The `switch (mode)` of `performImageEdit`.  Base model is
`gemini-2.5-flash-image`; REPLACE_BG branches only on the truthiness of the
optional inputs, upgrading to `gemini-3-pro-image-preview` when a secondary
background image is present; ENHANCE always uses the pro model with a 4K
image config. -/
def selectModePrompt (mode : EditMode) (options : EditOptions) : ModeSel :=
  match mode with
  | EditMode.PIXEL_ART =>
    { model := "gemini-2.5-flash-image", prompt := pixelArtPrompt,
      extraParts := [], imageConfig := none }
  | EditMode.ANIME =>
    { model := "gemini-2.5-flash-image", prompt := animePrompt,
      extraParts := [], imageConfig := none }
  | EditMode.REMOVE_BG =>
    { model := "gemini-2.5-flash-image", prompt := removeBgPrompt,
      extraParts := [], imageConfig := none }
  | EditMode.REPLACE_BG =>
    if jsTruthy options.backgroundImage then
      let bg := options.backgroundImage.getD ""
      { model := "gemini-3-pro-image-preview", prompt := compositeBgPrompt,
        extraParts := [ReqPart.inlineData { mimeType := dataUrlMime bg, data := base64Body bg }],
        imageConfig := none }
    else if jsTruthy options.backgroundColor then
      { model := "gemini-2.5-flash-image",
        prompt := coloredBgPrompt (options.backgroundColor.getD ""),
        extraParts := [], imageConfig := none }
    else
      { model := "gemini-2.5-flash-image", prompt := scenicBgPrompt,
        extraParts := [], imageConfig := none }
  | EditMode.ENHANCE =>
    { model := "gemini-3-pro-image-preview", prompt := enhancePrompt,
      extraParts := [],
      imageConfig := some { imageSize := "4K", aspectRatio := "1:1" } }
  | EditMode.NONE =>
    { model := "gemini-2.5-flash-image", prompt := "",
      extraParts := [], imageConfig := none }

/-- The full request assembled by `performImageEdit`: primary image first,
then the optional secondary image, then the prompt text part. -/
def buildRequest (imageBase64 mimeType : String) (mode : EditMode)
    (options : EditOptions) : GenRequest :=
  let sel := selectModePrompt mode options
  { model := sel.model
    parts := [ReqPart.inlineData { mimeType := mimeType, data := base64Body imageBase64 }]
             ++ sel.extraParts ++ [ReqPart.text sel.prompt]
    imageConfig := sel.imageConfig }

/-- The text parts of a request, in order: the instruction strings it carries. -/
def reqTexts (r : GenRequest) : List String :=
  r.parts.filterMap (fun p => match p with
    | ReqPart.text t => some t
    | ReqPart.inlineData _ => none)

/-- The number of inline-image parts of a request. -/
def reqImageCount (r : GenRequest) : Nat :=
  (r.parts.filter (fun p => match p with
    | ReqPart.inlineData _ => true
    | ReqPart.text _ => false)).length

/-- One part of a model response candidate: optional inline image data,
optional text. -/
structure RespPart where
  inlineData : Option InlineData := none
  text : Option String := none
deriving DecidableEq

/-- The extraction loop of `performImageEdit` (geminiService.ts lines
111-118): scan the ordered parts, take the first truthy
`part.inlineData.data`, else the empty string. -/
def firstImageData : List RespPart → String
  | [] => ""
  | p :: rest =>
    match p.inlineData with
    | some d => if d.data != "" then d.data else firstImageData rest
    | none => firstImageData rest

/-- The fixed error raised when the response holds no inline image data. -/
def noImageMsg : String :=
  "No image data found in response. The model may have returned text only."

/-- Response handling of `performImageEdit` (lines 108-124): a response is
the part list of the first candidate when the chain
`candidates && candidates[0].content && ...parts` is truthy (`none`
otherwise); extraction failure raises the fixed no-image error, success
returns a png data URL. -/
def performImageEditResult (resp : Option (List RespPart)) : Except String String :=
  let outputImageBase64 := match resp with
    | some parts => firstImageData parts
    | none => ""
  if outputImageBase64 = "" then Except.error noImageMsg
  else Except.ok ("data:image/png;base64," ++ outputImageBase64)

/-- End-to-end outcome of one `performImageEdit` invocation, given the
transport outcome of the single `generateContent` call.  The `catch` block
(lines 126-129) rewraps any error as `error.message || "Failed to process
image"`; the no-image error thrown inside the `try` passes through it with
its message intact. -/
def performImageEditOutcome (outcome : Except String (Option (List RespPart))) :
    Except String String :=
  match outcome with
  | Except.error m => Except.error (if m = "" then "Failed to process image" else m)
  | Except.ok resp =>
    match performImageEditResult resp with
    | Except.error m => Except.error (if m = "" then "Failed to process image" else m)
    | Except.ok r => Except.ok r

/-! ### Crop and filter chain (`generateFinalImage`, `getCssFilterString`) -/

/-- The source rectangle `(sx, sy, sWidth, sHeight)` computed by
`generateFinalImage`. -/
structure CropRect where
  sx : ℚ
  sy : ℚ
  sWidth : ℚ
  sHeight : ℚ
deriving DecidableEq

/-- The centre-crop computation of `generateFinalImage` (App.tsx lines
404-424).  `if (cropConfig.aspectRatio)` is a JS truthiness test, so both a
`null` and a `0` aspect ratio leave the full source rectangle; otherwise a
target ratio wider than the image crops height, anything else crops width. -/
def cropRect (w h : ℚ) (aspectRatio : Option ℚ) : CropRect :=
  match aspectRatio with
  | none => { sx := 0, sy := 0, sWidth := w, sHeight := h }
  | some targetRatio =>
    if targetRatio = 0 then { sx := 0, sy := 0, sWidth := w, sHeight := h }
    else
      let imgRatio := w / h
      if targetRatio > imgRatio then
        { sx := 0, sy := (h - w / targetRatio) / 2, sWidth := w, sHeight := w / targetRatio }
      else
        { sx := (w - h * targetRatio) / 2, sy := 0, sWidth := h * targetRatio, sHeight := h }

/-- The filter list built by `generateFinalImage` (App.tsx lines 431-442):
the four adjustment terms in fixed order, then the conditional preset
pushes.  Note there is no branch for `FilterType.BLUR`. -/
def exportFilterList (adj : Adjustments) (f : FilterType) : List String :=
  let filters := ["brightness(" ++ toString adj.brightness ++ "%)",
                  "contrast(" ++ toString adj.contrast ++ "%)",
                  "saturate(" ++ toString adj.saturation ++ "%)",
                  "blur(" ++ toString adj.blur ++ "px)"]
  let filters := if f = FilterType.GRAYSCALE then filters ++ ["grayscale(100%)"] else filters
  let filters := if f = FilterType.SEPIA then filters ++ ["sepia(100%)"] else filters
  let filters := if f = FilterType.VINTAGE
    then filters ++ ["sepia(50%) contrast(120%) brightness(90%)"] else filters
  filters

/-- `ctx.filter = filters.join(' ')` in `generateFinalImage`. -/
def exportFilterString (adj : Adjustments) (f : FilterType) : String :=
  String.intercalate " " (exportFilterList adj f)

/-- `getCssFilterString` (App.tsx lines 486-492): the preview filter string.
Again no branch for `FilterType.BLUR`. -/
def getCssFilterString (adj : Adjustments) (type : FilterType) : String :=
  let s := "brightness(" ++ toString adj.brightness ++ "%) contrast("
    ++ toString adj.contrast ++ "%) saturate(" ++ toString adj.saturation
    ++ "%) blur(" ++ toString adj.blur ++ "px) "
  let s := if type = FilterType.GRAYSCALE then s ++ "grayscale(100%)" else s
  let s := if type = FilterType.SEPIA then s ++ "sepia(100%)" else s
  let s := if type = FilterType.VINTAGE
    then s ++ "sepia(50%) contrast(120%) brightness(90%)" else s
  s

/-! ### Application state and step relation (App.tsx) -/

/-- The pending AI call captured by the closure of `handleAIEdit` while the
`await` is outstanding: the target session id and the request that was sent. -/
structure PendingCall where
  imageId : String
  request : GenRequest
deriving DecidableEq

/-- The pieces of `App` component state that the claims concern:
`images`, `activeImageId`, `processing`, `selectedBgColor`, `customBgImage`,
plus the in-flight call closure. -/
structure AppState where
  images : List ImageState
  activeImageId : Option String
  processing : ProcessingState
  selectedBgColor : String
  customBgImage : Option String
  pending : Option PendingCall
deriving DecidableEq

/-- Initial `App` state: no images, no active id, idle processing, white
background colour selected, no custom background. -/
def initState : AppState :=
  { images := []
    activeImageId := none
    processing := { isProcessing := false, error := none, mode := none }
    selectedBgColor := "#ffffff"
    customBgImage := none
    pending := none }

/-- `const activeImage = images.find(img => img.id === activeImageId)`. -/
def activeImg (s : AppState) : Option ImageState :=
  match s.activeImageId with
  | none => none
  | some aid => s.images.find? (fun i => i.id == aid)

/-- The application-level `pushHistory(newState, imageId)` (App.tsx lines
278-297): map over the image list, applying the per-session commit to every
image whose id matches. -/
def pushHistoryApp (p : PartialImage) (imageId : String) (s : AppState) : AppState :=
  { s with images := (s.images.map
      (fun i => if i.id == imageId then pushHistoryImg p i else i)) }

/-- User / environment events driving the `App` state.  `upload` carries the
randomly generated id and the decoded file contents; `aiStart` is the
synchronous prefix of `handleAIEdit` up to issuing the request; `aiFinish`
is its continuation after the `await`, parameterised by the transport
outcome of the call. -/
inductive Action where
  | upload (base64 name mimeType id : String)
  | selectImage (id : String)
  | setFilterAct (f : FilterType)
  | updateAdj (k : AdjKey) (v : Int)
  | undoAct
  | redoAct
  | aiStart (mode : EditMode)
  | aiFinish (outcome : Except String (Option (List RespPart)))
  | selectBgColor (c : String)
  | uploadBg (dataUrl : String)

/-- One step of the UI state machine.  Returns the successor state and the
list of outbound model requests issued during the step. -/
def step (s : AppState) : Action → AppState × List GenRequest
  | Action.upload base64 name mimeType id =>
    -- handleFileUpload: non-image files are skipped; the new session is
    -- appended and becomes active when no image was active yet.
    if strStartsWith mimeType "image/" then
      let newImg := mkSession base64 name mimeType id
      let updated := s.images ++ [newImg]
      ({ s with
          images := updated
          activeImageId := if s.activeImageId.isNone
            then updated.head?.map (fun i => i.id) else s.activeImageId }, [])
    else (s, [])
  | Action.selectImage id => ({ s with activeImageId := some id }, [])
  | Action.setFilterAct f =>
    -- setFilter: guarded on an active image, then pushHistory({ filter }).
    match activeImg s with
    | none => (s, [])
    | some img => (pushHistoryApp { filter := some f } img.id s, [])
  | Action.updateAdj k v =>
    -- updateAdjustment: live in-place slider update, no history.
    match activeImg s with
    | none => (s, [])
    | some img =>
      ({ s with images := (s.images.map
          (fun i => if i.id == img.id then updateAdjImg k v i else i)) }, [])
  | Action.undoAct =>
    -- undo: reads prevIndex and the historical entry from the *found* active
    -- image, then maps that data onto every id-matching session.
    match activeImg s with
    | none => (s, [])
    | some img =>
      if img.historyIndex ≤ 0 then (s, [])
      else
        match img.history[img.historyIndex - 1]? with
        | none => (s, [])
        | some e =>
          ({ s with images := (s.images.map (fun i => if i.id == img.id then
              { i with current := e.current, adjustments := e.adjustments,
                       filter := e.filter, historyIndex := img.historyIndex - 1 }
              else i)) }, [])
  | Action.redoAct =>
    match activeImg s with
    | none => (s, [])
    | some img =>
      if img.historyIndex ≥ img.history.length - 1 then (s, [])
      else
        match img.history[img.historyIndex + 1]? with
        | none => (s, [])
        | some e =>
          ({ s with images := (s.images.map (fun i => if i.id == img.id then
              { i with current := e.current, adjustments := e.adjustments,
                       filter := e.filter, historyIndex := img.historyIndex + 1 }
              else i)) }, [])
  | Action.aiStart mode =>
    -- handleAIEdit up to the await: guarded on an active image and on the
    -- global single-flight flag; sets the flag, clears the error, records
    -- the mode, and issues exactly one request built from the captured
    -- current image and the shared background options.
    match activeImg s with
    | none => (s, [])
    | some img =>
      if s.processing.isProcessing then (s, [])
      else
        let req := buildRequest (img.current.getD "") img.mimeType mode
          { backgroundColor := some s.selectedBgColor, backgroundImage := s.customBgImage }
        ({ s with
            processing := { isProcessing := true, error := none, mode := some mode }
            pending := some { imageId := img.id, request := req } }, [req])
  | Action.aiFinish outcome =>
    -- handleAIEdit after the await: on success commit the result to the
    -- captured session and reset the custom background; on failure record
    -- the message in the global error string and change nothing else.
    match s.pending with
    | none => (s, [])
    | some pc =>
      match performImageEditOutcome outcome with
      | Except.ok resultBase64 =>
        let s' := pushHistoryApp { current := some (some resultBase64) } pc.imageId s
        ({ s' with
            processing := { isProcessing := false, error := none, mode := none }
            customBgImage := none
            pending := none }, [])
      | Except.error msg =>
        ({ s with
            processing := { isProcessing := false,
                            error := some (if msg = "" then "Processing failed." else msg),
                            mode := none }
            pending := none }, [])
  | Action.selectBgColor c => ({ s with selectedBgColor := c, customBgImage := none }, [])
  | Action.uploadBg dataUrl => ({ s with customBgImage := some dataUrl }, [])

/-- The successor state of a step. -/
def stepS (s : AppState) (a : Action) : AppState := (step s a).1

/-- States reachable from the initial application state. -/
inductive Reachable : AppState → Prop
  | init : Reachable initState
  | more {s : AppState} (a : Action) : Reachable s → Reachable (stepS s a)

/-- Per-session reachability: the states one image session can be in under
session creation and the four session operations (commit, undo, redo, live
adjustment update). -/
inductive SessionReachable : ImageState → Prop
  | create (base64 name mimeType id : String) :
      SessionReachable (mkSession base64 name mimeType id)
  | push (p : PartialImage) {img : ImageState} :
      SessionReachable img → SessionReachable (pushHistoryImg p img)
  | undo {img : ImageState} :
      SessionReachable img → SessionReachable (undoImg img)
  | redo {img : ImageState} :
      SessionReachable img → SessionReachable (redoImg img)
  | adj (k : AdjKey) (v : Int) {img : ImageState} :
      SessionReachable img → SessionReachable (updateAdjImg k v img)

/-- The merged snapshot `newHistoryItem` built by `pushHistory`: each partial
key falls back to the session's currently visible value. -/
def mergedEntry (p : PartialImage) (img : ImageState) : HistoryEntry :=
  { current := p.current.getD img.current
    adjustments := p.adjustments.getD img.adjustments
    filter := p.filter.getD img.filter }

/-- The session history invariant: the cursor is in bounds and the entry at
the cursor is the currently visible snapshot. -/
def histInv (img : ImageState) : Prop :=
  img.historyIndex < img.history.length ∧
  img.history[img.historyIndex]? = some (visTriple img)

/-- The cursor sits on the last history entry. -/
def atEnd (img : ImageState) : Prop :=
  img.historyIndex + 1 = img.history.length

/-! ### Basic lemmas about the session operations -/

theorem pushHistoryImg_history (p : PartialImage) (img : ImageState) :
    (pushHistoryImg p img).history
      = img.history.take (img.historyIndex + 1) ++ [mergedEntry p img] := rfl

theorem pushHistoryImg_historyIndex (p : PartialImage) (img : ImageState) :
    (pushHistoryImg p img).historyIndex
      = (img.history.take (img.historyIndex + 1)).length := by
  simp [pushHistoryImg]

theorem visTriple_push (p : PartialImage) (img : ImageState) :
    visTriple (pushHistoryImg p img) = mergedEntry p img := rfl

theorem pushHistoryImg_id (p : PartialImage) (img : ImageState) :
    (pushHistoryImg p img).id = img.id := rfl

theorem histInv_push (p : PartialImage) (img : ImageState) :
    histInv (pushHistoryImg p img) := by
  constructor
  · rw [pushHistoryImg_history, pushHistoryImg_historyIndex]
    simp
  · rw [pushHistoryImg_history, pushHistoryImg_historyIndex, visTriple_push]
    exact List.getElem?_concat_length _ _

theorem histInv_mk (base64 name mimeType id : String) :
    histInv (mkSession base64 name mimeType id) := by
  constructor
  · simp [mkSession]
  · rfl

theorem atEnd_mk (base64 name mimeType id : String) :
    atEnd (mkSession base64 name mimeType id) := rfl

theorem undoImg_at_zero (img : ImageState) (h : img.historyIndex = 0) :
    undoImg img = img := by
  simp [undoImg, h]

theorem redoImg_at_last (img : ImageState)
    (h : img.historyIndex = img.history.length - 1) :
    redoImg img = img := by
  simp [redoImg, h]

theorem undoImg_step {img : ImageState} (hinv : histInv img)
    (hpos : 0 < img.historyIndex) :
    (undoImg img).history = img.history ∧
    (undoImg img).historyIndex = img.historyIndex - 1 ∧
    histInv (undoImg img) := by
  obtain ⟨hb, _⟩ := hinv
  have hlt : img.historyIndex - 1 < img.history.length :=
    lt_of_le_of_lt (Nat.sub_le _ _) hb
  have hsome := List.getElem?_eq_getElem hlt
  rw [undoImg, if_neg (by omega)]
  simp only [hsome]
  refine ⟨trivial, trivial, hlt, ?_⟩
  rw [hsome]
  rfl

theorem redoImg_step {img : ImageState}
    (hlt : img.historyIndex + 1 < img.history.length) :
    (redoImg img).history = img.history ∧
    (redoImg img).historyIndex = img.historyIndex + 1 ∧
    histInv (redoImg img) := by
  have hguard : ¬ img.historyIndex ≥ img.history.length - 1 := by omega
  have hsome := List.getElem?_eq_getElem hlt
  rw [redoImg, if_neg hguard]
  simp only [hsome]
  refine ⟨trivial, trivial, hlt, ?_⟩
  rw [hsome]
  rfl

theorem updateAdjImg_frame (k : AdjKey) (v : Int) (img : ImageState) :
    (updateAdjImg k v img).history = img.history ∧
    (updateAdjImg k v img).historyIndex = img.historyIndex ∧
    (updateAdjImg k v img).current = img.current ∧
    (updateAdjImg k v img).filter = img.filter ∧
    (updateAdjImg k v img).id = img.id ∧
    (updateAdjImg k v img).original = img.original ∧
    (updateAdjImg k v img).thumbnail = img.thumbnail ∧
    (updateAdjImg k v img).mimeType = img.mimeType ∧
    (updateAdjImg k v img).name = img.name :=
  ⟨rfl, rfl, rfl, rfl, rfl, rfl, rfl, rfl, rfl⟩

/-- A sequence of commits applied in order. -/
def commitList (ps : List PartialImage) (img : ImageState) : ImageState :=
  ps.foldl (fun i p => pushHistoryImg p i) img

theorem push_of_atEnd {img : ImageState} (h : atEnd img) (p : PartialImage) :
    (pushHistoryImg p img).history = img.history ++ [mergedEntry p img] ∧
    (pushHistoryImg p img).historyIndex = img.historyIndex + 1 ∧
    atEnd (pushHistoryImg p img) := by
  have htake : img.history.take (img.historyIndex + 1) = img.history :=
    List.take_of_length_le (le_of_eq h.symm)
  have hh := pushHistoryImg_history p img
  rw [htake] at hh
  have hi := pushHistoryImg_historyIndex p img
  rw [htake, ← h] at hi
  have h' : img.historyIndex + 1 = img.history.length := h
  refine ⟨hh, hi, ?_⟩
  show (pushHistoryImg p img).historyIndex + 1 = (pushHistoryImg p img).history.length
  rw [hh, hi, List.length_append]
  simp
  omega

theorem commitList_spec (ps : List PartialImage) :
    ∀ {img : ImageState}, atEnd img →
    atEnd (commitList ps img) ∧
    (commitList ps img).historyIndex = img.historyIndex + ps.length ∧
    (∀ j, j < img.history.length →
        (commitList ps img).history[j]? = img.history[j]?) := by
  induction ps with
  | nil =>
    intro img h
    exact ⟨h, by simp [commitList], fun j _ => rfl⟩
  | cons p ps ih =>
    intro img h
    have hstep : commitList (p :: ps) img = commitList ps (pushHistoryImg p img) := rfl
    obtain ⟨h1, h2, h3⟩ := push_of_atEnd h p
    obtain ⟨ih1, ih2, ih3⟩ := ih h3
    rw [hstep]
    refine ⟨ih1, ?_, ?_⟩
    · rw [ih2, h2]
      simp [Nat.add_assoc, Nat.add_comm 1 ps.length]
    · intro j hj
      have hj' : j < (pushHistoryImg p img).history.length := by
        rw [h1]
        simp
        omega
      rw [ih3 j hj', h1, List.getElem?_append_left hj]

theorem histInv_commitList (ps : List PartialImage) :
    ∀ {img : ImageState}, histInv img → histInv (commitList ps img) := by
  induction ps with
  | nil => intro img h; exact h
  | cons p ps ih => intro img _; exact ih (histInv_push p img)

theorem undoImg_iter (k : Nat) :
    ∀ {img : ImageState}, histInv img → k ≤ img.historyIndex →
    (undoImg^[k] img).history = img.history ∧
    (undoImg^[k] img).historyIndex = img.historyIndex - k ∧
    histInv (undoImg^[k] img) := by
  induction k with
  | zero => intro img h _; exact ⟨rfl, rfl, h⟩
  | succ k ih =>
    intro img hinv hk
    obtain ⟨ih1, ih2, ih3⟩ := ih hinv (by omega)
    have hpos : 0 < (undoImg^[k] img).historyIndex := by omega
    obtain ⟨s1, s2, s3⟩ := undoImg_step ih3 hpos
    rw [Function.iterate_succ_apply']
    exact ⟨by rw [s1, ih1], by rw [s2, ih2]; omega, s3⟩

theorem redoImg_iter (k : Nat) :
    ∀ {img : ImageState}, histInv img →
    img.historyIndex + k < img.history.length →
    (redoImg^[k] img).history = img.history ∧
    (redoImg^[k] img).historyIndex = img.historyIndex + k ∧
    histInv (redoImg^[k] img) := by
  induction k with
  | zero => intro img h _; exact ⟨rfl, rfl, h⟩
  | succ k ih =>
    intro img hinv hk
    obtain ⟨ih1, ih2, ih3⟩ := ih hinv (by omega)
    have hlt : (redoImg^[k] img).historyIndex + 1 < (redoImg^[k] img).history.length := by
      rw [ih1, ih2]
      omega
    obtain ⟨s1, s2, s3⟩ := redoImg_step hlt
    rw [Function.iterate_succ_apply']
    exact ⟨by rw [s1, ih1], by rw [s2, ih2]; omega, s3⟩

/-- Per-session frame: every field except the live `adjustments` agrees. -/
def sessionFrame (a b : ImageState) : Prop :=
  b.id = a.id ∧ b.original = a.original ∧ b.current = a.current ∧
  b.thumbnail = a.thumbnail ∧ b.mimeType = a.mimeType ∧ b.name = a.name ∧
  b.filter = a.filter ∧ b.history = a.history ∧ b.historyIndex = a.historyIndex

theorem sessionFrame_refl (a : ImageState) : sessionFrame a a :=
  ⟨rfl, rfl, rfl, rfl, rfl, rfl, rfl, rfl, rfl⟩

theorem forall2_frame_map (l : List ImageState) (f : ImageState → ImageState)
    (hf : ∀ x, sessionFrame x (f x)) :
    List.Forall₂ sessionFrame l (l.map f) := by
  induction l with
  | nil => exact List.Forall₂.nil
  | cons x xs ih => exact List.Forall₂.cons (hf x) ih

theorem forall2_frame_refl (l : List ImageState) :
    List.Forall₂ sessionFrame l l := by
  induction l with
  | nil => exact List.Forall₂.nil
  | cons x xs ih => exact List.Forall₂.cons (sessionFrame_refl x) ih

/-! ### Claims -/

/-- C10: the Blur filter preset contributes no term to the composited filter
chain, so rendering with `FilterType.BLUR` produces exactly the same filter
string as `FilterType.NONE`, in the preview path and in the export path;
any blur comes only from the blur adjustment slider. -/
theorem C10_blur_preset_noop (adj : Adjustments) :
    getCssFilterString adj FilterType.BLUR = getCssFilterString adj FilterType.NONE ∧
    exportFilterList adj FilterType.BLUR = exportFilterList adj FilterType.NONE ∧
    exportFilterString adj FilterType.BLUR = exportFilterString adj FilterType.NONE :=
  ⟨rfl, rfl, rfl⟩

/-- C5: the centred crop rectangle of `generateFinalImage`: a set target
ratio wider than the source keeps the full width and crops height
symmetrically; a narrower one keeps the full height and crops width
symmetrically; an equal ratio crops nothing; a null crop setting keeps the
full source.  (The hypothesis `r ≠ 0` mirrors JS truthiness: every
selectable aspect ratio in `ASPECT_RATIOS` is null or positive, so it is
satisfied by every crop setting the application can hold.) -/
theorem C5_center_crop (w h : ℚ) (ar : Option ℚ) (hw : 0 < w) (hh : 0 < h)
    (har : ar = none ∨ ∃ r, ar = some r ∧ r ≠ 0) :
    (ar = none → cropRect w h ar = { sx := 0, sy := 0, sWidth := w, sHeight := h }) ∧
    (∀ r, ar = some r → w / h < r →
        cropRect w h ar
          = { sx := 0, sy := (h - w / r) / 2, sWidth := w, sHeight := w / r }) ∧
    (∀ r, ar = some r → r < w / h →
        cropRect w h ar
          = { sx := (w - h * r) / 2, sy := 0, sWidth := h * r, sHeight := h }) ∧
    (∀ r, ar = some r → r = w / h →
        cropRect w h ar = { sx := 0, sy := 0, sWidth := w, sHeight := h }) := by
  have hratio : 0 < w / h := div_pos hw hh
  refine ⟨?_, ?_, ?_, ?_⟩
  · intro hn
    rw [hn]
    rfl
  · intro r hr hgt
    rw [hr]
    have hr0 : r ≠ 0 := by
      intro h0
      rw [h0] at hgt
      exact absurd hgt (not_lt.2 (le_of_lt hratio))
    simp only [cropRect, if_neg hr0, if_pos hgt]
  · intro r hr hlt
    rw [hr]
    have hr0 : r ≠ 0 := by
      rcases har with hn | ⟨r', hr', hne⟩
      · rw [hn] at hr; cases hr
      · rw [hr] at hr'
        injection hr' with hrr
        rw [hrr]
        exact hne
    simp only [cropRect, if_neg hr0, if_neg (not_lt.2 (le_of_lt hlt))]
  · intro r hr heq
    rw [hr]
    have hr0 : r ≠ 0 := by rw [heq]; exact ne_of_gt hratio
    have hwr : h * r = w := by
      rw [heq]
      field_simp
    have hnlt : ¬ (w / h < r) := by
      rw [heq]
      exact lt_irrefl _
    simp only [cropRect, if_neg hr0, if_neg hnlt]
    rw [hwr]
    simp

/-- C4: a live slider update (`updateAdjustment`) leaves every session's
history list, history cursor, visible result, filter and identity fields
unchanged, issues no request, and touches no other application state:
only the live `adjustments` record of the active session changes. -/
theorem C4_updateAdjustment_frame (s : AppState) (k : AdjKey) (v : Int) :
    List.Forall₂ sessionFrame s.images (stepS s (Action.updateAdj k v)).images ∧
    (step s (Action.updateAdj k v)).2 = [] ∧
    (stepS s (Action.updateAdj k v)).processing = s.processing ∧
    (stepS s (Action.updateAdj k v)).activeImageId = s.activeImageId ∧
    (stepS s (Action.updateAdj k v)).selectedBgColor = s.selectedBgColor ∧
    (stepS s (Action.updateAdj k v)).customBgImage = s.customBgImage ∧
    (stepS s (Action.updateAdj k v)).pending = s.pending := by
  simp only [stepS, step]
  cases hA : activeImg s with
  | none => exact ⟨forall2_frame_refl _, rfl, rfl, rfl, rfl, rfl, rfl⟩
  | some img =>
    refine ⟨?_, rfl, rfl, rfl, rfl, rfl, rfl⟩
    apply forall2_frame_map
    intro x
    by_cases hc : (x.id == img.id) = true
    · rw [if_pos hc]
      exact ⟨rfl, rfl, rfl, rfl, rfl, rfl, rfl, rfl, rfl⟩
    · rw [if_neg hc]
      exact sessionFrame_refl x

/-- C1: committing a partial state merges it over the session's visible
(current, adjustments, filter) state, truncates the history to the entries
at indices `0..historyIndex`, appends the merged full snapshot, and sets
the cursor to the new last index; every entry past the old cursor (the
redoable tail) is discarded, and redo is a no-op on the result. -/
theorem C1_pushHistory_commit (p : PartialImage) (img : ImageState)
    (h : img.historyIndex < img.history.length) :
    (pushHistoryImg p img).history
      = img.history.take (img.historyIndex + 1) ++ [mergedEntry p img] ∧
    visTriple (pushHistoryImg p img) = mergedEntry p img ∧
    (pushHistoryImg p img).history.length = img.historyIndex + 2 ∧
    (pushHistoryImg p img).historyIndex = img.historyIndex + 1 ∧
    (pushHistoryImg p img).historyIndex = (pushHistoryImg p img).history.length - 1 ∧
    (∀ j, j ≤ img.historyIndex →
        (pushHistoryImg p img).history[j]? = img.history[j]?) ∧
    (pushHistoryImg p img).history[img.historyIndex + 1]? = some (mergedEntry p img) ∧
    redoImg (pushHistoryImg p img) = pushHistoryImg p img := by
  have hlen : (img.history.take (img.historyIndex + 1)).length = img.historyIndex + 1 := by
    rw [List.length_take]
    omega
  have hlength : (pushHistoryImg p img).history.length = img.historyIndex + 2 := by
    rw [pushHistoryImg_history, List.length_append, hlen]
    rfl
  have hidx : (pushHistoryImg p img).historyIndex = img.historyIndex + 1 := by
    rw [pushHistoryImg_historyIndex, hlen]
  refine ⟨pushHistoryImg_history p img, visTriple_push p img, hlength, hidx, ?_, ?_, ?_, ?_⟩
  · rw [hidx, hlength]
    omega
  · intro j hj
    rw [pushHistoryImg_history, List.getElem?_append_left (by omega),
      List.getElem?_take, if_pos (by omega)]
  · rw [pushHistoryImg_history]
    have hcat := List.getElem?_concat_length
      (img.history.take (img.historyIndex + 1)) (mergedEntry p img)
    rw [hlen] at hcat
    exact hcat
  · exact redoImg_at_last _ (by rw [hidx, hlength]; omega)

/-- Concrete session with a two-entry redoable tail (cursor at 0 after two
undos), used to witness C1. -/
def c1Img : ImageState :=
  { id := "id1"
    original := some "x,A"
    current := some "x,A"
    thumbnail := some "x,A"
    mimeType := "image/png"
    name := "photo.png"
    adjustments := DEFAULT_ADJUSTMENTS
    filter := FilterType.NONE
    history :=
      [{ current := some "x,A", adjustments := DEFAULT_ADJUSTMENTS, filter := FilterType.NONE },
       { current := some "x,B", adjustments := DEFAULT_ADJUSTMENTS, filter := FilterType.SEPIA },
       { current := some "x,C", adjustments := DEFAULT_ADJUSTMENTS, filter := FilterType.BLUR }]
    historyIndex := 0 }

/-- Concrete partial commit used to witness C1. -/
def c1Part : PartialImage := { filter := some FilterType.GRAYSCALE }

/-- Witness for C1 at a concrete session whose cursor sits before a
two-entry redoable tail. -/
theorem C1_pushHistory_commit_witness :
    c1Img.historyIndex < c1Img.history.length ∧
    ((pushHistoryImg c1Part c1Img).history
        = c1Img.history.take (c1Img.historyIndex + 1) ++ [mergedEntry c1Part c1Img] ∧
      visTriple (pushHistoryImg c1Part c1Img) = mergedEntry c1Part c1Img ∧
      (pushHistoryImg c1Part c1Img).history.length = c1Img.historyIndex + 2 ∧
      (pushHistoryImg c1Part c1Img).historyIndex = c1Img.historyIndex + 1 ∧
      (pushHistoryImg c1Part c1Img).historyIndex
        = (pushHistoryImg c1Part c1Img).history.length - 1 ∧
      (∀ j, j ≤ c1Img.historyIndex →
          (pushHistoryImg c1Part c1Img).history[j]? = c1Img.history[j]?) ∧
      (pushHistoryImg c1Part c1Img).history[c1Img.historyIndex + 1]?
        = some (mergedEntry c1Part c1Img) ∧
      redoImg (pushHistoryImg c1Part c1Img) = pushHistoryImg c1Part c1Img) :=
  ⟨by decide, C1_pushHistory_commit c1Part c1Img (by decide)⟩

/-- C2 (amended): on every reachable session state the cursor invariant
`0 ≤ historyIndex < history.length` holds, and `history[historyIndex]`
agrees with the visible state on the result image and the filter.  (The
third component of the claimed triple equality — adjustments — fails after
a live slider update; see the counterexample.) -/
theorem C2_history_invariant_amended (img : ImageState)
    (h : SessionReachable img) :
    img.historyIndex < img.history.length ∧
    ∃ e, img.history[img.historyIndex]? = some e ∧
      e.current = img.current ∧ e.filter = img.filter := by
  have key : ∀ j : ImageState, SessionReachable j →
      j.historyIndex < j.history.length ∧
      ∃ e, j.history[j.historyIndex]? = some e ∧
        e.current = j.current ∧ e.filter = j.filter := by
    intro j hj
    induction hj with
    | create base64 name mimeType id =>
      obtain ⟨hb, he⟩ := histInv_mk base64 name mimeType id
      exact ⟨hb, visTriple _, he, rfl, rfl⟩
    | push p hj ih =>
      obtain ⟨hb, he⟩ := histInv_push p _
      exact ⟨hb, visTriple _, he, rfl, rfl⟩
    | undo hj ih =>
      rename_i i
      obtain ⟨hb, e, he, hc, hf⟩ := ih
      by_cases hz : i.historyIndex = 0
      · rw [undoImg_at_zero i hz]
        exact ⟨hb, e, he, hc, hf⟩
      · have hlt : i.historyIndex - 1 < i.history.length := by omega
        have hsome := List.getElem?_eq_getElem hlt
        rw [undoImg, if_neg (by omega)]
        simp only [hsome]
        exact ⟨hlt, _, rfl, rfl, rfl⟩
    | redo hj ih =>
      rename_i i
      obtain ⟨hb, e, he, hc, hf⟩ := ih
      by_cases hg : i.historyIndex ≥ i.history.length - 1
      · rw [redoImg, if_pos hg]
        exact ⟨hb, e, he, hc, hf⟩
      · have hlt : i.historyIndex + 1 < i.history.length := by omega
        have hsome := List.getElem?_eq_getElem hlt
        rw [redoImg, if_neg hg]
        simp only [hsome]
        exact ⟨hlt, _, rfl, rfl, rfl⟩
    | adj k v hj ih =>
      rename_i i
      obtain ⟨hb, e, he, hc, hf⟩ := ih
      exact ⟨hb, e, he, hc, hf⟩
  exact key img h

/-- The session state after a fresh upload followed by one live brightness
update: the C2 counterexample state. -/
def c2Img : ImageState :=
  updateAdjImg AdjKey.brightness 50
    (mkSession "data:image/png;base64,AAAA" "photo.png" "image/png" "id1")

/-- Counterexample to C2 as stated: after a reachable live slider update,
`history[historyIndex]` no longer equals the visible
(current, adjustments, filter) triple — its adjustments still hold the
committed brightness 100 while the visible brightness is 50. -/
theorem C2_history_invariant_counterexample :
    SessionReachable c2Img ∧
    c2Img.history[c2Img.historyIndex]? ≠ some (visTriple c2Img) ∧
    (c2Img.history[c2Img.historyIndex]?.map (fun e => e.adjustments.brightness)
        = some 100 ∧ c2Img.adjustments.brightness = 50) :=
  ⟨SessionReachable.adj AdjKey.brightness 50
      (SessionReachable.create "data:image/png;base64,AAAA" "photo.png" "image/png" "id1"),
    by decide, by decide, by decide⟩

/-- Witness for the amended C2 at a concrete reachable session state
(one upload, one commit, one undo). -/
theorem C2_history_invariant_witness :
    SessionReachable (undoImg (pushHistoryImg { filter := some FilterType.SEPIA }
        (mkSession "x,A" "p.png" "image/png" "id9"))) ∧
    ((undoImg (pushHistoryImg { filter := some FilterType.SEPIA }
        (mkSession "x,A" "p.png" "image/png" "id9"))).historyIndex
      < (undoImg (pushHistoryImg { filter := some FilterType.SEPIA }
        (mkSession "x,A" "p.png" "image/png" "id9"))).history.length ∧
    ∃ e, (undoImg (pushHistoryImg { filter := some FilterType.SEPIA }
        (mkSession "x,A" "p.png" "image/png" "id9"))).history[
          (undoImg (pushHistoryImg { filter := some FilterType.SEPIA }
            (mkSession "x,A" "p.png" "image/png" "id9"))).historyIndex]? = some e ∧
      e.current = (undoImg (pushHistoryImg { filter := some FilterType.SEPIA }
        (mkSession "x,A" "p.png" "image/png" "id9"))).current ∧
      e.filter = (undoImg (pushHistoryImg { filter := some FilterType.SEPIA }
        (mkSession "x,A" "p.png" "image/png" "id9"))).filter) :=
  have hr : SessionReachable (undoImg (pushHistoryImg { filter := some FilterType.SEPIA }
      (mkSession "x,A" "p.png" "image/png" "id9"))) :=
    SessionReachable.undo (SessionReachable.push _
      (SessionReachable.create "x,A" "p.png" "image/png" "id9"))
  ⟨hr, C2_history_invariant_amended _ hr⟩

/-- C3: from a fresh one-entry session, after any list of N commits,
N undos make the initial snapshot visible and N further redos make the
final committed snapshot visible again, exactly; undo at cursor 0 and redo
at the last index are no-ops. -/
theorem C3_undo_redo_roundtrip (base64 name mimeType id : String)
    (ps : List PartialImage) :
    visTriple (undoImg^[ps.length] (commitList ps (mkSession base64 name mimeType id)))
      = { current := some base64, adjustments := DEFAULT_ADJUSTMENTS,
          filter := FilterType.NONE } ∧
    visTriple (redoImg^[ps.length]
        (undoImg^[ps.length] (commitList ps (mkSession base64 name mimeType id))))
      = visTriple (commitList ps (mkSession base64 name mimeType id)) ∧
    (∀ img : ImageState, img.historyIndex = 0 → undoImg img = img) ∧
    (∀ img : ImageState, img.historyIndex = img.history.length - 1 →
        redoImg img = img) := by
  obtain ⟨hend, hidx, hpres⟩ := commitList_spec ps (atEnd_mk base64 name mimeType id)
  have hinv1 : histInv (commitList ps (mkSession base64 name mimeType id)) :=
    histInv_commitList ps (histInv_mk base64 name mimeType id)
  have hidx' : (commitList ps (mkSession base64 name mimeType id)).historyIndex
      = ps.length := by
    rw [hidx]
    show 0 + ps.length = ps.length
    omega
  obtain ⟨u1, u2, u3⟩ := undoImg_iter ps.length hinv1 (le_of_eq hidx'.symm)
  have hu0 : (undoImg^[ps.length]
      (commitList ps (mkSession base64 name mimeType id))).historyIndex = 0 := by
    rw [u2, hidx']
    omega
  have hlen1 : (commitList ps (mkSession base64 name mimeType id)).history.length
      = ps.length + 1 := by
    have : atEnd (commitList ps (mkSession base64 name mimeType id)) := hend
    unfold atEnd at this
    omega
  refine ⟨?_, ?_, undoImg_at_zero, redoImg_at_last⟩
  · -- after N undos the cursor is 0 and the entry there is the seed snapshot
    obtain ⟨hb, hvis⟩ := u3
    rw [hu0] at hvis
    rw [u1, hpres 0 (by simp [mkSession])] at hvis
    have hseed : (mkSession base64 name mimeType id).history[0]?
        = some { current := some base64, adjustments := DEFAULT_ADJUSTMENTS,
                 filter := FilterType.NONE } := rfl
    rw [hseed] at hvis
    injection hvis.symm
  · -- N redos climb back to the cursor of the committed state
    obtain ⟨r1, r2, r3⟩ := redoImg_iter ps.length u3 (by rw [u1, hu0, hlen1]; omega)
    obtain ⟨rb, rvis⟩ := r3
    obtain ⟨cb, cvis⟩ := hinv1
    rw [r2, hu0, r1, u1] at rvis
    rw [hidx'] at cvis
    rw [Nat.zero_add] at rvis
    rw [cvis] at rvis
    injection rvis with hv
    exact hv.symm

/-- Witness for C3 at a concrete two-commit session. -/
theorem C3_undo_redo_roundtrip_witness :
    visTriple (undoImg^[([{ filter := some FilterType.SEPIA },
          { current := some (some "x,B") }] : List PartialImage).length]
        (commitList [{ filter := some FilterType.SEPIA },
          { current := some (some "x,B") }] (mkSession "x,A" "p.png" "image/png" "id3")))
      = { current := some "x,A", adjustments := DEFAULT_ADJUSTMENTS,
          filter := FilterType.NONE } ∧
    visTriple (redoImg^[([{ filter := some FilterType.SEPIA },
          { current := some (some "x,B") }] : List PartialImage).length]
        (undoImg^[([{ filter := some FilterType.SEPIA },
          { current := some (some "x,B") }] : List PartialImage).length]
        (commitList [{ filter := some FilterType.SEPIA },
          { current := some (some "x,B") }] (mkSession "x,A" "p.png" "image/png" "id3"))))
      = visTriple (commitList [{ filter := some FilterType.SEPIA },
          { current := some (some "x,B") }] (mkSession "x,A" "p.png" "image/png" "id3")) ∧
    (∀ img : ImageState, img.historyIndex = 0 → undoImg img = img) ∧
    (∀ img : ImageState, img.historyIndex = img.history.length - 1 →
        redoImg img = img) :=
  C3_undo_redo_roundtrip "x,A" "p.png" "image/png" "id3"
    [{ filter := some FilterType.SEPIA }, { current := some (some "x,B") }]

/-- Witness for C5 at the spec's own example: an 800×600 source with a
square (1:1) target ratio yields the centred 600×600 crop at x = 100. -/
theorem C5_center_crop_witness :
    (0 : ℚ) < 800 ∧ (0 : ℚ) < 600 ∧
    ((some (1 : ℚ) = none) ∨ ∃ r, some (1 : ℚ) = some r ∧ r ≠ 0) ∧
    cropRect 800 600 (some 1)
      = { sx := (800 - 600 * 1) / 2, sy := 0, sWidth := 600 * 1, sHeight := 600 } :=
  ⟨by norm_num, by norm_num, Or.inr ⟨1, rfl, by norm_num⟩,
    (C5_center_crop 800 600 (some 1) (by norm_num) (by norm_num)
      (Or.inr ⟨1, rfl, by norm_num⟩)).2.2.1 1 rfl (by norm_num)⟩

/-- C6: for ReplaceBackground the adapter's model/instruction selection
depends only on which optional inputs are truthy, never on the image
bytes: a present secondary background image selects the pro model and the
two-image compositing instruction (regardless of any background colour);
otherwise a present colour string selects the colored-background
instruction; otherwise the generic scenic instruction; the flash model is
kept in the latter two cases. -/
theorem C6_replace_bg_selection (imageBase64 mimeType : String)
    (options : EditOptions) :
    (jsTruthy options.backgroundImage = true →
      (buildRequest imageBase64 mimeType EditMode.REPLACE_BG options).model
        = "gemini-3-pro-image-preview" ∧
      reqTexts (buildRequest imageBase64 mimeType EditMode.REPLACE_BG options)
        = [compositeBgPrompt] ∧
      reqImageCount (buildRequest imageBase64 mimeType EditMode.REPLACE_BG options) = 2) ∧
    (jsTruthy options.backgroundImage = false → jsTruthy options.backgroundColor = true →
      (buildRequest imageBase64 mimeType EditMode.REPLACE_BG options).model
        = "gemini-2.5-flash-image" ∧
      reqTexts (buildRequest imageBase64 mimeType EditMode.REPLACE_BG options)
        = [coloredBgPrompt (options.backgroundColor.getD "")]) ∧
    (jsTruthy options.backgroundImage = false → jsTruthy options.backgroundColor = false →
      (buildRequest imageBase64 mimeType EditMode.REPLACE_BG options).model
        = "gemini-2.5-flash-image" ∧
      reqTexts (buildRequest imageBase64 mimeType EditMode.REPLACE_BG options)
        = [scenicBgPrompt]) ∧
    (∀ otherBytes : String,
      (buildRequest otherBytes mimeType EditMode.REPLACE_BG options).model
        = (buildRequest imageBase64 mimeType EditMode.REPLACE_BG options).model ∧
      reqTexts (buildRequest otherBytes mimeType EditMode.REPLACE_BG options)
        = reqTexts (buildRequest imageBase64 mimeType EditMode.REPLACE_BG options)) := by
  refine ⟨?_, ?_, ?_, ?_⟩
  · intro hbi
    simp [buildRequest, selectModePrompt, reqTexts, reqImageCount, hbi]
  · intro hbi hbc
    simp [buildRequest, selectModePrompt, reqTexts, hbi, hbc]
  · intro hbi hbc
    simp [buildRequest, selectModePrompt, reqTexts, hbi, hbc]
  · intro otherBytes
    cases hbi : jsTruthy options.backgroundImage <;>
      cases hbc : jsTruthy options.backgroundColor <;>
        simp [buildRequest, selectModePrompt, reqTexts, hbi, hbc]

/-- Witness for C6: both a secondary background image and a background
colour present — the pro model and the compositing instruction win. -/
theorem C6_replace_bg_selection_witness :
    jsTruthy (some "data:image/jpeg;base64,BBBB") = true ∧
    ((buildRequest "data:image/png;base64,AAAA" "image/png" EditMode.REPLACE_BG
        { backgroundColor := some "#ffffff",
          backgroundImage := some "data:image/jpeg;base64,BBBB" }).model
      = "gemini-3-pro-image-preview" ∧
    reqTexts (buildRequest "data:image/png;base64,AAAA" "image/png" EditMode.REPLACE_BG
        { backgroundColor := some "#ffffff",
          backgroundImage := some "data:image/jpeg;base64,BBBB" })
      = [compositeBgPrompt] ∧
    reqImageCount (buildRequest "data:image/png;base64,AAAA" "image/png" EditMode.REPLACE_BG
        { backgroundColor := some "#ffffff",
          backgroundImage := some "data:image/jpeg;base64,BBBB" }) = 2) :=
  ⟨by decide,
    (C6_replace_bg_selection "data:image/png;base64,AAAA" "image/png"
      { backgroundColor := some "#ffffff",
        backgroundImage := some "data:image/jpeg;base64,BBBB" }).1 (by decide)⟩

/-! ### App-level lemmas for the AI-edit flow -/

theorem find?_map_update (l : List ImageState) (pid : String)
    (f : ImageState → ImageState) (hf : ∀ i, (f i).id = i.id) :
    (l.map (fun i => if i.id == pid then f i else i)).find? (fun i => i.id == pid)
      = (l.find? (fun i => i.id == pid)).map f := by
  induction l with
  | nil => rfl
  | cons x xs ih =>
    by_cases hx : (x.id == pid) = true
    · rw [List.map_cons, if_pos hx,
        @List.find?_cons_of_pos _ (fun i => i.id == pid) (f x) _
          (by show ((f x).id == pid) = true; rw [hf x]; exact hx),
        @List.find?_cons_of_pos _ (fun i => i.id == pid) x xs hx]
      rfl
    · rw [List.map_cons, if_neg hx,
        @List.find?_cons_of_neg _ (fun i => i.id == pid) x _ hx,
        @List.find?_cons_of_neg _ (fun i => i.id == pid) x xs hx]
      exact ih

theorem firstImageData_all_empty (parts : List RespPart)
    (h : ∀ q ∈ parts, ∀ d : InlineData, q.inlineData = some d → d.data = "") :
    firstImageData parts = "" := by
  induction parts with
  | nil => rfl
  | cons p rest ih =>
    rw [firstImageData]
    cases hq : p.inlineData with
    | none => exact ih (fun q hq' => h q (List.mem_cons_of_mem _ hq'))
    | some d =>
      have hd : d.data = "" := h p (List.mem_cons_self _ _) d hq
      show (if (d.data != "") = true then d.data else firstImageData rest) = ""
      rw [hd]
      simp only [bne_self_eq_false, Bool.false_eq_true, if_false]
      exact ih (fun q hq' => h q (List.mem_cons_of_mem _ hq'))

theorem result_error_eq {resp : Option (List RespPart)} {m : String}
    (h : performImageEditResult resp = Except.error m) : m = noImageMsg := by
  cases resp with
  | none =>
    have hres : performImageEditResult none = Except.error noImageMsg := rfl
    rw [hres] at h
    injection h with h'
    exact h'.symm
  | some parts =>
    by_cases hz : firstImageData parts = ""
    · have hres : performImageEditResult (some parts) = Except.error noImageMsg := by
        show (if firstImageData parts = "" then Except.error noImageMsg
          else Except.ok ("data:image/png;base64," ++ firstImageData parts))
            = Except.error noImageMsg
        rw [if_pos hz]
      rw [hres] at h
      injection h with h'
      exact h'.symm
    · have hres : performImageEditResult (some parts)
          = Except.ok ("data:image/png;base64," ++ firstImageData parts) := by
        show (if firstImageData parts = "" then Except.error noImageMsg
          else Except.ok ("data:image/png;base64," ++ firstImageData parts))
            = Except.ok ("data:image/png;base64," ++ firstImageData parts)
        rw [if_neg hz]
      rw [hres] at h
      cases h

theorem outcome_error_ne_empty {outcome : Except String (Option (List RespPart))}
    {msg : String} (h : performImageEditOutcome outcome = Except.error msg) :
    msg ≠ "" := by
  have hNoImage : noImageMsg ≠ "" := by decide
  cases outcome with
  | error m =>
    have hred : performImageEditOutcome (Except.error m)
        = Except.error (if m = "" then "Failed to process image" else m) := rfl
    rw [hred] at h
    injection h with h'
    rw [← h']
    by_cases hm : m = ""
    · rw [if_pos hm]
      decide
    · rw [if_neg hm]
      exact hm
  | ok resp =>
    have hred : performImageEditOutcome (Except.ok resp)
        = match performImageEditResult resp with
          | Except.error m => Except.error (if m = "" then "Failed to process image" else m)
          | Except.ok r => Except.ok r := rfl
    rw [hred] at h
    cases hres : performImageEditResult resp with
    | ok r =>
      rw [hres] at h
      cases h
    | error m2 =>
      rw [hres] at h
      injection h with h'
      rw [← h', result_error_eq hres]
      rw [if_neg hNoImage]
      exact hNoImage

/-- The options record passed by `handleAIEdit`: always the selected
background colour, plus the custom background image when one is staged. -/
def aiOpts (s : AppState) : EditOptions :=
  { backgroundColor := some s.selectedBgColor, backgroundImage := s.customBgImage }

/-- The request `handleAIEdit` builds for the active session: the captured
current image bytes and MIME type plus the shared background options. -/
def aiReq (s : AppState) (img : ImageState) (mode : EditMode) : GenRequest :=
  buildRequest (img.current.getD "") img.mimeType mode (aiOpts s)

/-- C7: invoking RemoveBackground from an idle state issues exactly one
outbound request, whose single instruction text is the fixed
remove-background prompt containing "pure solid white background"; on a
successful response the target session commits exactly one new history
entry holding the returned image with the prior visible adjustments and
filter, every other session is untouched, and no further request is
issued. -/
theorem C7_remove_bg_flow (s : AppState) (aid : String) (img : ImageState)
    (parts : List RespPart)
    (hA : s.activeImageId = some aid)
    (hFind : s.images.find? (fun i => i.id == aid) = some img)
    (hIdle : s.processing.isProcessing = false)
    (hData : firstImageData parts ≠ "") :
    (step s (Action.aiStart EditMode.REMOVE_BG)).2 = [aiReq s img EditMode.REMOVE_BG] ∧
    reqTexts (aiReq s img EditMode.REMOVE_BG) = [removeBgPrompt] ∧
    (∃ pre post : String,
        removeBgPrompt = pre ++ "pure solid white background" ++ post) ∧
    (stepS (stepS s (Action.aiStart EditMode.REMOVE_BG))
        (Action.aiFinish (Except.ok (some parts)))).images.find? (fun i => i.id == aid)
      = some (pushHistoryImg
          { current := some (some ("data:image/png;base64," ++ firstImageData parts)) } img) ∧
    (pushHistoryImg
        { current := some (some ("data:image/png;base64," ++ firstImageData parts)) } img).history
      = img.history.take (img.historyIndex + 1)
        ++ [{ current := some ("data:image/png;base64," ++ firstImageData parts),
              adjustments := img.adjustments, filter := img.filter }] ∧
    (step (stepS s (Action.aiStart EditMode.REMOVE_BG))
        (Action.aiFinish (Except.ok (some parts)))).2 = [] ∧
    (∀ i ∈ s.images, i.id ≠ img.id →
        i ∈ (stepS (stepS s (Action.aiStart EditMode.REMOVE_BG))
          (Action.aiFinish (Except.ok (some parts)))).images) := by
  have hAct : activeImg s = some img := by
    rw [activeImg, hA]
    exact hFind
  have hid : img.id = aid := by
    have := List.find?_some hFind
    simpa using this
  subst hid
  have hstart : step s (Action.aiStart EditMode.REMOVE_BG)
      = ({ s with
            processing := { isProcessing := true, error := none,
                            mode := some EditMode.REMOVE_BG },
            pending := some { imageId := img.id,
                              request := aiReq s img EditMode.REMOVE_BG } },
         [aiReq s img EditMode.REMOVE_BG]) := by
    rw [step, hAct]
    show (if s.processing.isProcessing = true then _ else _) = _
    rw [hIdle]
    rfl
  have hresOk : performImageEditOutcome (Except.ok (some parts))
      = Except.ok ("data:image/png;base64," ++ firstImageData parts) := by
    show (match performImageEditResult (some parts) with
      | Except.error m => Except.error (if m = "" then "Failed to process image" else m)
      | Except.ok r => Except.ok r)
      = Except.ok ("data:image/png;base64," ++ firstImageData parts)
    rw [show performImageEditResult (some parts)
        = Except.ok ("data:image/png;base64," ++ firstImageData parts) by
      show (if firstImageData parts = "" then Except.error noImageMsg
        else Except.ok ("data:image/png;base64," ++ firstImageData parts))
          = Except.ok ("data:image/png;base64," ++ firstImageData parts)
      rw [if_neg hData]]
  have hpend : (stepS s (Action.aiStart EditMode.REMOVE_BG)).pending
      = some { imageId := img.id, request := aiReq s img EditMode.REMOVE_BG } := by
    rw [stepS, hstart]
  have himages : (stepS s (Action.aiStart EditMode.REMOVE_BG)).images = s.images := by
    rw [stepS, hstart]
  have hfinish : step (stepS s (Action.aiStart EditMode.REMOVE_BG))
      (Action.aiFinish (Except.ok (some parts)))
      = ({ pushHistoryApp
            { current := some (some ("data:image/png;base64," ++ firstImageData parts)) }
            img.id (stepS s (Action.aiStart EditMode.REMOVE_BG)) with
           processing := { isProcessing := false, error := none, mode := none },
           customBgImage := none,
           pending := none }, []) := by
    rw [step, hpend, hresOk]
  refine ⟨?_, ?_, ?_, ?_, ?_, ?_, ?_⟩
  · rw [hstart]
  · rfl
  · exact ⟨"Isolate the main subject of this image and place it on a ",
      ". Ensure the edges are clean and precise.", rfl⟩
  · rw [stepS, hfinish]
    show ((stepS s (Action.aiStart EditMode.REMOVE_BG)).images.map
      (fun i => if i.id == img.id then pushHistoryImg
        { current := some (some ("data:image/png;base64," ++ firstImageData parts)) } i
        else i)).find? (fun i => i.id == img.id) = _
    rw [himages,
      find?_map_update s.images img.id _ (fun i => pushHistoryImg_id _ i), hFind]
    rfl
  · rw [pushHistoryImg_history]
    rfl
  · rw [hfinish]
  · intro i hi hne
    rw [stepS, hfinish]
    show i ∈ (stepS s (Action.aiStart EditMode.REMOVE_BG)).images.map
      (fun j => if j.id == img.id then pushHistoryImg
        { current := some (some ("data:image/png;base64," ++ firstImageData parts)) } j
        else j)
    rw [himages]
    have hfix : (fun j => if j.id == img.id then pushHistoryImg
        { current := some (some ("data:image/png;base64," ++ firstImageData parts)) } j
        else j) i = i := by
      have hb : (i.id == img.id) = false := beq_eq_false_iff_ne.2 hne
      simp [hb]
    rw [← hfix]
    exact List.mem_map_of_mem _ hi

/-- Concrete state for the C7 witness: one uploaded image, idle. -/
def c7S : AppState :=
  stepS initState
    (Action.upload "data:image/png;base64,AAAA" "photo.png" "image/png" "id1")

/-- The session held by `c7S`. -/
def c7ImgW : ImageState :=
  mkSession "data:image/png;base64,AAAA" "photo.png" "image/png" "id1"

/-- A successful response carrying one inline image. -/
def c7Parts : List RespPart :=
  [{ inlineData := some { mimeType := "image/png", data := "QQQ" }, text := none }]

set_option maxRecDepth 10000 in
/-- Witness for C7 at a concrete one-image state and a concrete successful
response. -/
theorem C7_remove_bg_flow_witness :
    (c7S.activeImageId = some "id1" ∧
      c7S.images.find? (fun i => i.id == "id1") = some c7ImgW ∧
      c7S.processing.isProcessing = false ∧
      firstImageData c7Parts ≠ "") ∧
    ((step c7S (Action.aiStart EditMode.REMOVE_BG)).2 = [aiReq c7S c7ImgW EditMode.REMOVE_BG] ∧
      reqTexts (aiReq c7S c7ImgW EditMode.REMOVE_BG) = [removeBgPrompt] ∧
      (∃ pre post : String,
          removeBgPrompt = pre ++ "pure solid white background" ++ post) ∧
      (stepS (stepS c7S (Action.aiStart EditMode.REMOVE_BG))
          (Action.aiFinish (Except.ok (some c7Parts)))).images.find? (fun i => i.id == "id1")
        = some (pushHistoryImg
            { current := some (some ("data:image/png;base64," ++ firstImageData c7Parts)) }
            c7ImgW) ∧
      (pushHistoryImg
          { current := some (some ("data:image/png;base64," ++ firstImageData c7Parts)) }
          c7ImgW).history
        = c7ImgW.history.take (c7ImgW.historyIndex + 1)
          ++ [{ current := some ("data:image/png;base64," ++ firstImageData c7Parts),
                adjustments := c7ImgW.adjustments, filter := c7ImgW.filter }] ∧
      (step (stepS c7S (Action.aiStart EditMode.REMOVE_BG))
          (Action.aiFinish (Except.ok (some c7Parts)))).2 = [] ∧
      (∀ i ∈ c7S.images, i.id ≠ c7ImgW.id →
          i ∈ (stepS (stepS c7S (Action.aiStart EditMode.REMOVE_BG))
            (Action.aiFinish (Except.ok (some c7Parts)))).images)) :=
  ⟨⟨by decide, by decide, by decide, by decide⟩,
    C7_remove_bg_flow c7S "id1" c7ImgW c7Parts
      (by decide) (by decide) (by decide) (by decide)⟩

/-- C8: a response whose content parts carry no (nonempty) inline image
data — text-only or empty — makes the invocation fail with the fixed
no-image-data error; and on any invocation failure the session list is
unchanged, no request is issued, and the failure is recorded only in the
global error string with the processing flag cleared. -/
theorem C8_no_image_error :
    (∀ parts : List RespPart,
      (∀ q ∈ parts, ∀ d : InlineData, q.inlineData = some d → d.data = "") →
      performImageEditResult (some parts) = Except.error noImageMsg) ∧
    performImageEditResult none = Except.error noImageMsg ∧
    (∀ (s : AppState) (pc : PendingCall)
        (outcome : Except String (Option (List RespPart))) (msg : String),
      s.pending = some pc →
      performImageEditOutcome outcome = Except.error msg →
      (stepS s (Action.aiFinish outcome)).images = s.images ∧
      (step s (Action.aiFinish outcome)).2 = [] ∧
      (stepS s (Action.aiFinish outcome)).processing
        = { isProcessing := false, error := some msg, mode := none } ∧
      (stepS s (Action.aiFinish outcome)).activeImageId = s.activeImageId ∧
      (stepS s (Action.aiFinish outcome)).customBgImage = s.customBgImage) := by
  refine ⟨?_, rfl, ?_⟩
  · intro parts h
    have hz := firstImageData_all_empty parts h
    show (if firstImageData parts = "" then Except.error noImageMsg
      else Except.ok ("data:image/png;base64," ++ firstImageData parts))
        = Except.error noImageMsg
    rw [if_pos hz]
  · intro s pc outcome msg hp hOut
    have hne := outcome_error_ne_empty hOut
    have hstep : step s (Action.aiFinish outcome)
        = ({ s with
              processing := { isProcessing := false,
                              error := some (if msg = "" then "Processing failed." else msg),
                              mode := none },
              pending := none }, []) := by
      rw [step, hp, hOut]
    rw [stepS, hstep]
    refine ⟨rfl, rfl, ?_, rfl, rfl⟩
    rw [if_neg hne]

/-- Text-only response parts for the C8 witness. -/
def c8Parts : List RespPart :=
  [{ inlineData := none, text := some "I cannot edit this image." }]

/-- Concrete state with one pending ENHANCE call for the C8 witness. -/
def c8State : AppState :=
  stepS (stepS initState
      (Action.upload "data:image/png;base64,AAAA" "photo.png" "image/png" "id1"))
    (Action.aiStart EditMode.ENHANCE)

/-- The pending call captured inside `c8State`. -/
def c8Pending : PendingCall :=
  { imageId := "id1",
    request := buildRequest "data:image/png;base64,AAAA" "image/png" EditMode.ENHANCE
      { backgroundColor := some "#ffffff", backgroundImage := none } }

/-- A text-only transport success: the failure mode C8 describes. -/
def c8Outcome : Except String (Option (List RespPart)) := Except.ok (some c8Parts)

set_option maxRecDepth 10000 in
/-- Witness for C8: a concrete text-only response fails with the fixed
message and leaves the concrete pending state's sessions unchanged. -/
theorem C8_no_image_error_witness :
    ((∀ q ∈ c8Parts, ∀ d : InlineData, q.inlineData = some d → d.data = "") ∧
      performImageEditResult (some c8Parts) = Except.error noImageMsg) ∧
    (c8State.pending = some c8Pending ∧
      performImageEditOutcome c8Outcome = Except.error noImageMsg ∧
      ((stepS c8State (Action.aiFinish c8Outcome)).images = c8State.images ∧
        (step c8State (Action.aiFinish c8Outcome)).2 = [] ∧
        (stepS c8State (Action.aiFinish c8Outcome)).processing
          = { isProcessing := false, error := some noImageMsg, mode := none } ∧
        (stepS c8State (Action.aiFinish c8Outcome)).activeImageId = c8State.activeImageId ∧
        (stepS c8State (Action.aiFinish c8Outcome)).customBgImage
          = c8State.customBgImage)) := by
  have hout : performImageEditOutcome c8Outcome = Except.error noImageMsg := rfl
  have hpend : c8State.pending = some c8Pending := by decide
  exact ⟨⟨by decide, (C8_no_image_error).1 c8Parts (by decide)⟩,
    hpend, hout,
    (C8_no_image_error).2.2 c8State c8Pending c8Outcome noImageMsg hpend hout⟩

/-- On every reachable state the single global processing flag is set
exactly while a call is pending. -/
theorem pendingFlag {s : AppState} (h : Reachable s) :
    s.processing.isProcessing = s.pending.isSome := by
  induction h with
  | init => rfl
  | more a hs ih =>
    cases a <;> rw [stepS, step] <;> (repeat' split) <;> first | exact ih | rfl

/-- C9: on every reachable state, if the global processing flag is set then
`handleAIEdit` is a guard-rejected no-op — it issues no request and changes
nothing — and the flag is set exactly while one call is pending, so at most
one AI operation is in flight process-wide, across all loaded images. -/
theorem C9_single_flight (s : AppState) (hs : Reachable s) :
    (s.processing.isProcessing = true →
      ∀ mode : EditMode, step s (Action.aiStart mode) = (s, [])) ∧
    s.processing.isProcessing = s.pending.isSome := by
  refine ⟨?_, pendingFlag hs⟩
  intro hp mode
  rw [step]
  cases hA : activeImg s with
  | none => rfl
  | some img =>
    show (if s.processing.isProcessing = true then (s, ([] : List GenRequest)) else _)
      = (s, [])
    rw [if_pos hp]

/-- Concrete reachable state with the processing flag set, for the C9
witness: one upload, then one AI start. -/
def c9State : AppState :=
  stepS (stepS initState
      (Action.upload "data:image/png;base64,AAAA" "photo.png" "image/png" "id1"))
    (Action.aiStart EditMode.REMOVE_BG)

set_option maxRecDepth 10000 in
/-- Witness for C9: with a call outstanding at `c9State`, a second AI start
is a no-op issuing no request. -/
theorem C9_single_flight_witness :
    Reachable c9State ∧ c9State.processing.isProcessing = true ∧
    step c9State (Action.aiStart EditMode.ENHANCE) = (c9State, []) ∧
    c9State.processing.isProcessing = c9State.pending.isSome := by
  have hr : Reachable c9State :=
    Reachable.more (Action.aiStart EditMode.REMOVE_BG)
      (Reachable.more
        (Action.upload "data:image/png;base64,AAAA" "photo.png" "image/png" "id1")
        Reachable.init)
  have h := C9_single_flight c9State hr
  exact ⟨hr, by decide, h.1 (by decide) EditMode.ENHANCE, h.2⟩

end GeminiLens
